import Mathlib

/-!
Verification of the secure-rag-researcher retrieval pipeline.

This file gives a shallow embedding of the core logic of `main.py`
(`SecureRAGResearcher`): the PII/secret pattern scanner
(`scan_for_secrets`), the constructor-time environment validation
(`_validate_environment` run from `__init__`), the vectorstore
reuse policy (`create_vectorstore`), and the query-time guard
(`query`). Python strings are embedded as Lean `String`/`List Char`,
`re.findall`-nonemptiness as an executable backtracking matcher over
a token representation of each of the seven regular expressions, and
Python exceptions as an `Except` error type.

The chunker and the top-k vector retrieval are provided by external
libraries (`RecursiveCharacterTextSplitter`, FAISS) whose code is not
part of the repository; those two operations are modelled from the
specification text (see the definitions marked `Modelled from the
spec`).
-/

/-! ### Char case lemmas -/

/-- A `Nat` that is a valid codepoint round-trips through `Char.ofNat`. -/
theorem toNat_ofNat_of_valid (n : Nat) (h : n.isValidChar) : (Char.ofNat n).toNat = n := by
  unfold Char.ofNat
  rw [dif_pos h]
  rfl

/-- `Char.toUpper` either maps a lowercase ASCII letter down by 32 or fixes the character. -/
theorem toUpper_spec (c : Char) :
    (97 ≤ c.toNat ∧ c.toNat ≤ 122 ∧ c.toUpper.toNat = c.toNat - 32) ∨
    (¬(97 ≤ c.toNat ∧ c.toNat ≤ 122) ∧ c.toUpper = c) := by
  have hdef : c.toUpper = if 97 ≤ c.toNat ∧ c.toNat ≤ 122 then Char.ofNat (c.toNat - 32) else c := rfl
  by_cases h : 97 ≤ c.toNat ∧ c.toNat ≤ 122
  · left
    refine ⟨h.1, h.2, ?_⟩
    rw [hdef, if_pos h]
    exact toNat_ofNat_of_valid _ (Or.inl (by omega))
  · right
    rw [hdef, if_neg h]
    exact ⟨h, rfl⟩

/-- `Char.toLower` either maps an uppercase ASCII letter up by 32 or fixes the character. -/
theorem toLower_spec (c : Char) :
    (65 ≤ c.toNat ∧ c.toNat ≤ 90 ∧ c.toLower.toNat = c.toNat + 32) ∨
    (¬(65 ≤ c.toNat ∧ c.toNat ≤ 90) ∧ c.toLower = c) := by
  have hdef : c.toLower = if 65 ≤ c.toNat ∧ c.toNat ≤ 90 then Char.ofNat (c.toNat + 32) else c := rfl
  by_cases h : 65 ≤ c.toNat ∧ c.toNat ≤ 90
  · left
    refine ⟨h.1, h.2, ?_⟩
    rw [hdef, if_pos h]
    exact toNat_ofNat_of_valid _ (Or.inl (by omega))
  · right
    rw [hdef, if_neg h]
    exact ⟨h, rfl⟩

/-- A decidable codepoint predicate stable on the lower/upper 32-shift is stable under `toUpper`. -/
theorem decide_comp_toUpper (P : Nat → Prop) [DecidablePred P]
    (h : ∀ n, 97 ≤ n → n ≤ 122 → (P (n - 32) ↔ P n)) (c : Char) :
    decide (P (Char.toUpper c).toNat) = decide (P c.toNat) := by
  rcases toUpper_spec c with ⟨h1, h2, h3⟩ | ⟨h1, h2⟩
  · rw [h3]
    exact decide_eq_decide.mpr (h _ h1 h2)
  · rw [h2]

/-- A decidable codepoint predicate stable on the upper/lower 32-shift is stable under `toLower`. -/
theorem decide_comp_toLower (P : Nat → Prop) [DecidablePred P]
    (h : ∀ n, 65 ≤ n → n ≤ 90 → (P (n + 32) ↔ P n)) (c : Char) :
    decide (P (Char.toLower c).toNat) = decide (P c.toNat) := by
  rcases toLower_spec c with ⟨h1, h2, h3⟩ | ⟨h1, h2⟩
  · rw [h3]
    exact decide_eq_decide.mpr (h _ h1 h2)
  · rw [h2]

/-! ### Character classes of the seven regexes in `scan_for_secrets` (src/main.py lines 158-166)

Each class is a predicate on codepoints, written exactly as the ASCII
ranges of the corresponding regex character class, already closed under
`re.IGNORECASE` (which makes letter ranges match both cases).

Scope: this is the ASCII fragment of CPython's default (non-`re.ASCII`)
semantics, and it is exact on ASCII text.  CPython's Unicode mode
additionally lets the digit and word shorthands accept non-ASCII digits
and word characters, and lets IGNORECASE classes and literals accept a
handful of non-ASCII case-fold equivalents of ASCII letters (such as the
dotless i for `i` or the Kelvin sign for `k`); none of those characters
occur in the concrete strings this file evaluates.  The one non-ASCII
character this file does evaluate, the sharp s (U+00DF), matches no class
in either semantics — CPython's IGNORECASE does not fold it into the
letter ranges because its case image is the two-character `SS`. -/

/-- Regex class for a literal character: matches exactly `a`. -/
def litC (a : Char) (c : Char) : Bool := decide (c.toNat = a.toNat)

/-- Regex literal letter under IGNORECASE: for a lowercase letter `a`,
matches `a` itself or its uppercase counterpart (codepoint minus 32) —
the ASCII case pair; CPython's extra Unicode fold equivalents of the
letter are outside the fragment (see the section comment). -/
def iLitC (a : Char) (c : Char) : Bool := decide (c.toNat = a.toNat ∨ c.toNat + 32 = a.toNat)

/-- Python regex digit shorthand, ASCII fragment: `0`-`9` (Unicode mode
also accepts non-ASCII decimal digits; see the section comment). -/
def digitC (c : Char) : Bool := decide (48 ≤ c.toNat ∧ c.toNat ≤ 57)

/-- Regex class `[A-Za-z]` (case-closed). -/
def alphaC (c : Char) : Bool :=
  decide ((65 ≤ c.toNat ∧ c.toNat ≤ 90) ∨ (97 ≤ c.toNat ∧ c.toNat ≤ 122))

/-- Regex class `[A-Za-z0-9]`; also `[0-9A-Z]` under IGNORECASE (AWS key body). -/
def alnumC (c : Char) : Bool :=
  decide ((48 ≤ c.toNat ∧ c.toNat ≤ 57) ∨ (65 ≤ c.toNat ∧ c.toNat ≤ 90) ∨
          (97 ≤ c.toNat ∧ c.toNat ≤ 122))

/-- Python regex whitespace shorthand (ASCII): space, tab, newline, vertical tab, form feed, carriage return. -/
def wsC (c : Char) : Bool := decide (c.toNat = 32 ∨ (9 ≤ c.toNat ∧ c.toNat ≤ 13))

/-- Python regex word-character shorthand, ASCII fragment: letters,
digits, underscore; used by word boundaries (Unicode mode also counts
non-ASCII word characters; see the section comment). -/
def wordC (c : Char) : Bool :=
  decide ((48 ≤ c.toNat ∧ c.toNat ≤ 57) ∨ (65 ≤ c.toNat ∧ c.toNat ≤ 90) ∨
          (97 ≤ c.toNat ∧ c.toNat ≤ 122) ∨ c.toNat = 95)

/-- Email local part class `[A-Za-z0-9._%+-]` (codes 46, 95, 37, 43, 45 for `.` `_` `%` `+` `-`). -/
def emailLocalC (c : Char) : Bool :=
  decide ((48 ≤ c.toNat ∧ c.toNat ≤ 57) ∨ (65 ≤ c.toNat ∧ c.toNat ≤ 90) ∨
          (97 ≤ c.toNat ∧ c.toNat ≤ 122) ∨ c.toNat = 46 ∨ c.toNat = 95 ∨
          c.toNat = 37 ∨ c.toNat = 43 ∨ c.toNat = 45)

/-- Email domain class `[A-Za-z0-9.-]` (codes 46, 45 for `.` `-`). -/
def emailDomC (c : Char) : Bool :=
  decide ((48 ≤ c.toNat ∧ c.toNat ≤ 57) ∨ (65 ≤ c.toNat ∧ c.toNat ≤ 90) ∨
          (97 ≤ c.toNat ∧ c.toNat ≤ 122) ∨ c.toNat = 46 ∨ c.toNat = 45)

/-- Email top-level-domain class `[A-Z|a-z]`: letters plus the literal pipe character (code 124). -/
def tldC (c : Char) : Bool :=
  decide ((65 ≤ c.toNat ∧ c.toNat ≤ 90) ∨ (97 ≤ c.toNat ∧ c.toNat ≤ 122) ∨ c.toNat = 124)

/-- Separator class of the API-key regex: whitespace, colon, equals, double quote, single quote
(codes 58, 61, 34, 39). -/
def apiSepC (c : Char) : Bool :=
  decide (c.toNat = 32 ∨ (9 ≤ c.toNat ∧ c.toNat ≤ 13) ∨ c.toNat = 58 ∨ c.toNat = 61 ∨
          c.toNat = 34 ∨ c.toNat = 39)

/-- Captured-token class of the API-key regex `[a-zA-Z0-9_\-]` (codes 95, 45 for `_` `-`). -/
def apiKeyC (c : Char) : Bool :=
  decide ((48 ≤ c.toNat ∧ c.toNat ≤ 57) ∨ (65 ≤ c.toNat ∧ c.toNat ≤ 90) ∨
          (97 ≤ c.toNat ∧ c.toNat ≤ 122) ∨ c.toNat = 95 ∨ c.toNat = 45)

/-- Credit-card separator class `[\s-]` (code 45 for `-`). -/
def ccSepC (c : Char) : Bool :=
  decide (c.toNat = 32 ∨ (9 ≤ c.toNat ∧ c.toNat ≤ 13) ∨ c.toNat = 45)

/-- Phone-number separator class `[-.\s]` (codes 45, 46 for `-` `.`). -/
def phoneSepC (c : Char) : Bool :=
  decide (c.toNat = 45 ∨ c.toNat = 46 ∨ c.toNat = 32 ∨ (9 ≤ c.toNat ∧ c.toNat ≤ 13))

/-! ### Token representation of regexes and the matcher

A pattern is an alternation of token sequences.  A token is either a
word boundary or a character-class repetition with a lower bound and an
optional upper bound, which covers every construct used by the seven
patterns of `scan_for_secrets` (single characters, `?`, `+`,
bounded/unbounded counted repetition, and top-level alternation after
distributing the tail of the API-key pattern over its three branches). -/

/-- One regex token: a word boundary, or between `lo` and `hi` (none = unbounded)
characters of class `p`. -/
inductive Tok where
  | wb : Tok
  | cls : (Char → Bool) → Nat → Option Nat → Tok

/-- Word-character test on an optional character; absent characters (string edges) are non-word. -/
def wordOpt : Option Char → Bool
  | none => false
  | some c => wordC c

/-- Decrement an optional repetition bound. -/
def decOpt : Option Nat → Option Nat
  | none => none
  | some n => some (n - 1)

/-- Is an optional repetition bound exhausted? -/
def hiZero : Option Nat → Bool
  | some 0 => true
  | _ => false

/-- Backtracking matcher: does the token list match some prefix of `s`?
`prev` is the character just before the current position (for word
boundaries) and `fuel` bounds the recursion; every recursive call
strictly decreases `s.length + toks.length`, so `s.length + toks.length + 1`
fuel is always sufficient. -/
def matchToks : Nat → List Tok → Option Char → List Char → Bool
  | 0, _, _, _ => false
  | Nat.succ f, toks, prev, s =>
    match toks with
    | [] => true
    | Tok.wb :: rest => (wordOpt prev != wordOpt s.head?) && matchToks f rest prev s
    | Tok.cls p lo hi :: rest =>
      match lo with
      | 0 =>
        matchToks f rest prev s ||
          (if hiZero hi then false else
            match s with
            | [] => false
            | c :: s2 => p c && matchToks f (Tok.cls p 0 (decOpt hi) :: rest) (some c) s2)
      | Nat.succ lo2 =>
        match s with
        | [] => false
        | c :: s2 => p c && matchToks f (Tok.cls p lo2 (decOpt hi) :: rest) (some c) s2

/-- Match a token sequence at the current position, with sufficient fuel. -/
def matchHere (toks : List Tok) (prev : Option Char) (s : List Char) : Bool :=
  matchToks (s.length + toks.length + 1) toks prev s

/-- Try every alternative of the pattern at every start position of `s`
(the existence semantics of `re.findall(...) ≠ []`). -/
def searchFrom (alts : List (List Tok)) : Option Char → List Char → Bool
  | prev, [] => alts.any fun t => matchHere t prev []
  | prev, c :: s2 => (alts.any fun t => matchHere t prev (c :: s2)) || searchFrom alts (some c) s2

/-- Does the pattern match anywhere in the string? -/
def hasMatch (alts : List (List Tok)) (s : String) : Bool :=
  searchFrom alts none s.data

/-- A single mandatory character of class `p`. -/
def one (p : Char → Bool) : Tok := Tok.cls p 1 (some 1)

/-- Regex `+`: one or more characters of class `p`. -/
def rep1 (p : Char → Bool) : Tok := Tok.cls p 1 none

/-- Regex counted repetition with no upper bound. -/
def atLeast (p : Char → Bool) (n : Nat) : Tok := Tok.cls p n none

/-- Regex exact counted repetition. -/
def exactly (p : Char → Bool) (n : Nat) : Tok := Tok.cls p n (some n)

/-- Regex `?`: an optional character of class `p`. -/
def opt (p : Char → Bool) : Tok := Tok.cls p 0 (some 1)

/-- Regex bounded counted repetition. -/
def between (p : Char → Bool) (lo hi : Nat) : Tok := Tok.cls p lo (some hi)

/-! ### The seven patterns of `scan_for_secrets` (src/main.py lines 158-166) -/

/-- Email regex of src/main.py line 159. -/
def emailPat : List (List Tok) :=
  [[Tok.wb, rep1 emailLocalC, one (litC '@'), rep1 emailDomC, one (litC '.'),
    atLeast tldC 2, Tok.wb]]

/-- SSN regex of src/main.py line 160. -/
def ssnPat : List (List Tok) :=
  [[Tok.wb, exactly digitC 3, one (litC '-'), exactly digitC 2, one (litC '-'),
    exactly digitC 4, Tok.wb]]

/-- Credit-card regex of src/main.py line 161. -/
def ccPat : List (List Tok) :=
  [[Tok.wb, exactly digitC 4, opt ccSepC, exactly digitC 4, opt ccSepC,
    exactly digitC 4, opt ccSepC, exactly digitC 4, Tok.wb]]

/-- Class `[_-]` of the API-key regex (codes 95, 45). -/
def undHyphC (c : Char) : Bool := decide (c.toNat = 95 ∨ c.toNat = 45)

/-- API-key regex of src/main.py line 162, with the non-capturing alternation
distributed over the common tail (separator plus 20-or-more token characters). -/
def apiKeyPat : List (List Tok) :=
  [[one (iLitC 'a'), one (iLitC 'p'), one (iLitC 'i'), opt undHyphC,
    one (iLitC 'k'), one (iLitC 'e'), one (iLitC 'y'), one apiSepC, atLeast apiKeyC 20],
   [one (iLitC 'a'), one (iLitC 'p'), one (iLitC 'i'),
    one (iLitC 'k'), one (iLitC 'e'), one (iLitC 'y'), one apiSepC, atLeast apiKeyC 20],
   [one (iLitC 'a'), one (iLitC 'p'), one (iLitC 'i'), opt undHyphC,
    one (iLitC 's'), one (iLitC 'e'), one (iLitC 'c'), one (iLitC 'r'),
    one (iLitC 'e'), one (iLitC 't'), one apiSepC, atLeast apiKeyC 20]]

/-- AWS access-key regex of src/main.py line 163 (`AKIA` is case-insensitive
under the IGNORECASE flag, and `[0-9A-Z]` becomes alphanumeric). -/
def awsPat : List (List Tok) :=
  [[Tok.wb, one (iLitC 'a'), one (iLitC 'k'), one (iLitC 'i'), one (iLitC 'a'),
    exactly alnumC 16, Tok.wb]]

/-- Phone-number regex of src/main.py line 164. -/
def phonePat : List (List Tok) :=
  [[Tok.wb, exactly digitC 3, opt phoneSepC, exactly digitC 3, opt phoneSepC,
    exactly digitC 4, Tok.wb]]

/-- IP-address regex of src/main.py line 165, with the counted group `(?:\d+\.){3}` unrolled. -/
def ipPat : List (List Tok) :=
  [[Tok.wb, between digitC 1 3, one (litC '.'), between digitC 1 3, one (litC '.'),
    between digitC 1 3, one (litC '.'), between digitC 1 3, Tok.wb]]

example : hasMatch emailPat "a@b.io" = true := by decide

example : hasMatch emailPat "ab.io" = false := by decide

example : hasMatch ssnPat "123-45-6789" = true := by decide

example : hasMatch ipPat "10.0.0.1" = true := by decide

/-! ### Case-invariance of the character classes

Every class used by the seven patterns gives the same verdict on a
character, its uppercased form and its lowercased form.  Each proof is
the generic `decide_comp` lemma plus linear arithmetic on codepoints. -/

/-- A class is case-invariant when `toUpper` and `toLower` do not change its verdict. -/
def caseInvC (p : Char → Bool) : Prop :=
  ∀ c, p (Char.toUpper c) = p c ∧ p (Char.toLower c) = p c

/-- A literal class for a non-letter character is case-invariant. -/
theorem litC_ci (a : Char) (hu : ¬(65 ≤ a.toNat ∧ a.toNat ≤ 90))
    (hl : ¬(97 ≤ a.toNat ∧ a.toNat ≤ 122)) : caseInvC (litC a) := fun c =>
  ⟨decide_comp_toUpper (fun n => n = a.toNat) (by omega) c,
   decide_comp_toLower (fun n => n = a.toNat) (by omega) c⟩

/-- A case-insensitive literal class for a lowercase letter is case-invariant. -/
theorem iLitC_ci (a : Char) (h1 : 97 ≤ a.toNat) (h2 : a.toNat ≤ 122) :
    caseInvC (iLitC a) := fun c =>
  ⟨decide_comp_toUpper (fun n => n = a.toNat ∨ n + 32 = a.toNat) (by omega) c,
   decide_comp_toLower (fun n => n = a.toNat ∨ n + 32 = a.toNat) (by omega) c⟩

/-- The digit class is case-invariant. -/
theorem digitC_ci : caseInvC digitC := fun c =>
  ⟨decide_comp_toUpper (fun n => 48 ≤ n ∧ n ≤ 57) (by omega) c,
   decide_comp_toLower (fun n => 48 ≤ n ∧ n ≤ 57) (by omega) c⟩

/-- The letter class is case-invariant. -/
theorem alphaC_ci : caseInvC alphaC := fun c =>
  ⟨decide_comp_toUpper (fun n => (65 ≤ n ∧ n ≤ 90) ∨ (97 ≤ n ∧ n ≤ 122)) (by omega) c,
   decide_comp_toLower (fun n => (65 ≤ n ∧ n ≤ 90) ∨ (97 ≤ n ∧ n ≤ 122)) (by omega) c⟩

/-- The alphanumeric class is case-invariant. -/
theorem alnumC_ci : caseInvC alnumC := fun c =>
  ⟨decide_comp_toUpper (fun n => (48 ≤ n ∧ n ≤ 57) ∨ (65 ≤ n ∧ n ≤ 90) ∨ (97 ≤ n ∧ n ≤ 122))
      (by omega) c,
   decide_comp_toLower (fun n => (48 ≤ n ∧ n ≤ 57) ∨ (65 ≤ n ∧ n ≤ 90) ∨ (97 ≤ n ∧ n ≤ 122))
      (by omega) c⟩

/-- The word-character class is case-invariant. -/
theorem wordC_ci : caseInvC wordC := fun c =>
  ⟨decide_comp_toUpper
      (fun n => (48 ≤ n ∧ n ≤ 57) ∨ (65 ≤ n ∧ n ≤ 90) ∨ (97 ≤ n ∧ n ≤ 122) ∨ n = 95)
      (by omega) c,
   decide_comp_toLower
      (fun n => (48 ≤ n ∧ n ≤ 57) ∨ (65 ≤ n ∧ n ≤ 90) ∨ (97 ≤ n ∧ n ≤ 122) ∨ n = 95)
      (by omega) c⟩

/-- The email local-part class is case-invariant. -/
theorem emailLocalC_ci : caseInvC emailLocalC := fun c =>
  ⟨decide_comp_toUpper
      (fun n => (48 ≤ n ∧ n ≤ 57) ∨ (65 ≤ n ∧ n ≤ 90) ∨ (97 ≤ n ∧ n ≤ 122) ∨
        n = 46 ∨ n = 95 ∨ n = 37 ∨ n = 43 ∨ n = 45) (by omega) c,
   decide_comp_toLower
      (fun n => (48 ≤ n ∧ n ≤ 57) ∨ (65 ≤ n ∧ n ≤ 90) ∨ (97 ≤ n ∧ n ≤ 122) ∨
        n = 46 ∨ n = 95 ∨ n = 37 ∨ n = 43 ∨ n = 45) (by omega) c⟩

/-- The email domain class is case-invariant. -/
theorem emailDomC_ci : caseInvC emailDomC := fun c =>
  ⟨decide_comp_toUpper
      (fun n => (48 ≤ n ∧ n ≤ 57) ∨ (65 ≤ n ∧ n ≤ 90) ∨ (97 ≤ n ∧ n ≤ 122) ∨ n = 46 ∨ n = 45)
      (by omega) c,
   decide_comp_toLower
      (fun n => (48 ≤ n ∧ n ≤ 57) ∨ (65 ≤ n ∧ n ≤ 90) ∨ (97 ≤ n ∧ n ≤ 122) ∨ n = 46 ∨ n = 45)
      (by omega) c⟩

/-- The email top-level-domain class is case-invariant. -/
theorem tldC_ci : caseInvC tldC := fun c =>
  ⟨decide_comp_toUpper (fun n => (65 ≤ n ∧ n ≤ 90) ∨ (97 ≤ n ∧ n ≤ 122) ∨ n = 124)
      (by omega) c,
   decide_comp_toLower (fun n => (65 ≤ n ∧ n ≤ 90) ∨ (97 ≤ n ∧ n ≤ 122) ∨ n = 124)
      (by omega) c⟩

/-- The API-key separator class is case-invariant. -/
theorem apiSepC_ci : caseInvC apiSepC := fun c =>
  ⟨decide_comp_toUpper
      (fun n => n = 32 ∨ (9 ≤ n ∧ n ≤ 13) ∨ n = 58 ∨ n = 61 ∨ n = 34 ∨ n = 39) (by omega) c,
   decide_comp_toLower
      (fun n => n = 32 ∨ (9 ≤ n ∧ n ≤ 13) ∨ n = 58 ∨ n = 61 ∨ n = 34 ∨ n = 39) (by omega) c⟩

/-- The API-key token class is case-invariant. -/
theorem apiKeyC_ci : caseInvC apiKeyC := fun c =>
  ⟨decide_comp_toUpper
      (fun n => (48 ≤ n ∧ n ≤ 57) ∨ (65 ≤ n ∧ n ≤ 90) ∨ (97 ≤ n ∧ n ≤ 122) ∨ n = 95 ∨ n = 45)
      (by omega) c,
   decide_comp_toLower
      (fun n => (48 ≤ n ∧ n ≤ 57) ∨ (65 ≤ n ∧ n ≤ 90) ∨ (97 ≤ n ∧ n ≤ 122) ∨ n = 95 ∨ n = 45)
      (by omega) c⟩

/-- The underscore-or-hyphen class is case-invariant. -/
theorem undHyphC_ci : caseInvC undHyphC := fun c =>
  ⟨decide_comp_toUpper (fun n => n = 95 ∨ n = 45) (by omega) c,
   decide_comp_toLower (fun n => n = 95 ∨ n = 45) (by omega) c⟩

/-- The credit-card separator class is case-invariant. -/
theorem ccSepC_ci : caseInvC ccSepC := fun c =>
  ⟨decide_comp_toUpper (fun n => n = 32 ∨ (9 ≤ n ∧ n ≤ 13) ∨ n = 45) (by omega) c,
   decide_comp_toLower (fun n => n = 32 ∨ (9 ≤ n ∧ n ≤ 13) ∨ n = 45) (by omega) c⟩

/-- The phone-number separator class is case-invariant. -/
theorem phoneSepC_ci : caseInvC phoneSepC := fun c =>
  ⟨decide_comp_toUpper (fun n => n = 45 ∨ n = 46 ∨ n = 32 ∨ (9 ≤ n ∧ n ≤ 13)) (by omega) c,
   decide_comp_toLower (fun n => n = 45 ∨ n = 46 ∨ n = 32 ∨ (9 ≤ n ∧ n ≤ 13)) (by omega) c⟩

/-! ### Case-invariance of the matcher -/

/-- A token is invariant under a character map `g` when its class gives
the same verdict on `g c` as on `c` (word boundaries carry no class). -/
def TokMapInv (g : Char → Char) : Tok → Prop
  | Tok.wb => True
  | Tok.cls p _ _ => ∀ c, p (g c) = p c

/-- A token whose class is case-invariant is invariant under both case maps. -/
def TokCI (t : Tok) : Prop := TokMapInv Char.toUpper t ∧ TokMapInv Char.toLower t

/-- Word boundaries are trivially case-invariant. -/
theorem wb_tokCI : TokCI Tok.wb := ⟨trivial, trivial⟩

/-- A class token built from a case-invariant class is case-invariant. -/
theorem cls_tokCI {p : Char → Bool} (h : caseInvC p) (lo : Nat) (hi : Option Nat) :
    TokCI (Tok.cls p lo hi) := ⟨fun c => (h c).1, fun c => (h c).2⟩

/-- Pointwise-equal predicates give equal `List.any` results. -/
theorem anyCongr {α : Type} {f h : α → Bool} :
    ∀ (l : List α), (∀ x ∈ l, f x = h x) → l.any f = l.any h := by
  intro l
  induction l with
  | nil => intro _; rfl
  | cons a l ih =>
    intro hx
    show (f a || l.any f) = (h a || l.any h)
    rw [hx a (List.mem_cons_self _ _), ih (fun x hm => hx x (List.mem_cons_of_mem _ hm))]

/-- The matcher is invariant under a character map `g` that preserves
word-characterhood and every class of the token list. -/
theorem matchToks_map (g : Char → Char) (hg : ∀ c, wordC (g c) = wordC c) :
    ∀ (f : Nat) (toks : List Tok) (prev : Option Char) (s : List Char),
      (∀ t ∈ toks, TokMapInv g t) →
      matchToks f toks (Option.map g prev) (List.map g s) = matchToks f toks prev s := by
  intro f
  induction f with
  | zero => intro toks prev s _; rfl
  | succ f ih =>
    intro toks prev s htoks
    match toks with
    | [] => rfl
    | Tok.wb :: rest =>
      have hrest : ∀ t ∈ rest, TokMapInv g t := fun t ht => htoks t (List.mem_cons_of_mem _ ht)
      have h1 : wordOpt (prev.map g) = wordOpt prev := by
        cases prev with
        | none => rfl
        | some c => exact hg c
      have h2 : wordOpt ((s.map g).head?) = wordOpt s.head? := by
        cases s with
        | nil => rfl
        | cons c s2 => exact hg c
      simp only [matchToks]
      rw [h1, h2, ih rest prev s hrest]
    | Tok.cls p lo hi :: rest =>
      have hp : ∀ c, p (g c) = p c := htoks (Tok.cls p lo hi) (List.mem_cons_self _ _)
      have hrest : ∀ t ∈ rest, TokMapInv g t := fun t ht => htoks t (List.mem_cons_of_mem _ ht)
      match lo with
      | 0 =>
        simp only [matchToks]
        rw [ih rest prev s hrest]
        congr 1
        by_cases hz : hiZero hi = true
        · rw [if_pos hz, if_pos hz]
        · rw [if_neg hz, if_neg hz]
          cases s with
          | nil => rfl
          | cons c s2 =>
            show (p (g c) && _) = (p c && _)
            rw [hp c]
            congr 1
            have hcons : ∀ t ∈ Tok.cls p 0 (decOpt hi) :: rest, TokMapInv g t := by
              intro t ht
              rcases List.mem_cons.mp ht with h | h
              · subst h; exact hp
              · exact hrest t h
            exact ih _ (some c) s2 hcons
      | Nat.succ lo2 =>
        cases s with
        | nil => rfl
        | cons c s2 =>
          simp only [matchToks, List.map_cons]
          rw [hp c]
          congr 1
          have hcons : ∀ t ∈ Tok.cls p lo2 (decOpt hi) :: rest, TokMapInv g t := by
            intro t ht
            rcases List.mem_cons.mp ht with h | h
            · subst h; exact hp
            · exact hrest t h
          exact ih _ (some c) s2 hcons

/-- `matchHere` is invariant under a word-preserving, class-preserving character map. -/
theorem matchHere_map (g : Char → Char) (hg : ∀ c, wordC (g c) = wordC c)
    (toks : List Tok) (prev : Option Char) (s : List Char)
    (htoks : ∀ t ∈ toks, TokMapInv g t) :
    matchHere toks (Option.map g prev) (List.map g s) = matchHere toks prev s := by
  unfold matchHere
  rw [List.length_map]
  exact matchToks_map g hg _ toks prev s htoks

/-- `searchFrom` is invariant under a word-preserving, class-preserving character map. -/
theorem searchFrom_map (g : Char → Char) (hg : ∀ c, wordC (g c) = wordC c)
    (alts : List (List Tok)) (halts : ∀ a ∈ alts, ∀ t ∈ a, TokMapInv g t) :
    ∀ (s : List Char) (prev : Option Char),
      searchFrom alts (Option.map g prev) (List.map g s) = searchFrom alts prev s := by
  intro s
  induction s with
  | nil =>
    intro prev
    show (alts.any fun t => matchHere t (prev.map g) []) = _
    exact anyCongr alts (fun t ht => matchHere_map g hg t prev [] (halts t ht))
  | cons c s2 ih =>
    intro prev
    simp only [List.map_cons, searchFrom]
    rw [anyCongr alts (fun t ht => by
          have := matchHere_map g hg t prev (c :: s2) (halts t ht)
          simpa using this)]
    congr 1
    have := ih (some c)
    simpa using this

/-! ### The scanner `scan_for_secrets` (src/main.py lines 139-176) -/

/-- A retrieved chunk, as consumed by the scanner: a LangChain document
with its text in `page_content`. -/
structure Document where
  page_content : String

/-- The fixed pattern registry of src/main.py lines 158-166, in source order. -/
def patterns : List (String × List (List Tok)) :=
  [("Email Address", emailPat),
   ("SSN", ssnPat),
   ("Credit Card", ccPat),
   ("API Key Pattern", apiKeyPat),
   ("AWS Access Key", awsPat),
   ("Phone Number", phonePat),
   ("IP Address", ipPat)]

/-- The finding string built for a pattern label (src/main.py line 173). -/
def mkLabel (label : String) : String := label ++ " pattern detected in source chunk"

/-- The findings list before deduplication: for every document and, in
registry order, every pattern with a match in that document, the label
string (the loop of src/main.py lines 168-173). -/
def scanFindings (documents : List Document) : List String :=
  documents.flatMap fun doc =>
    (patterns.filter fun lp => hasMatch lp.2 doc.page_content).map fun lp => mkLabel lp.1

/-- `scan_for_secrets` of src/main.py lines 139-176: empty when PII
detection is disabled, otherwise the deduplicated findings
(`list(set(findings))`, modelled as `List.dedup`). -/
def scan_for_secrets (enable_pii_detection : Bool) (documents : List Document) : List String :=
  if !enable_pii_detection then [] else (scanFindings documents).dedup

/-- Membership in the findings list, characterized. -/
theorem mem_scanFindings {s : String} {docs : List Document} :
    s ∈ scanFindings docs ↔
      ∃ d ∈ docs, ∃ lp ∈ patterns, hasMatch lp.2 d.page_content = true ∧ s = mkLabel lp.1 := by
  simp only [scanFindings, List.mem_flatMap, List.mem_map, List.mem_filter]
  constructor
  · rintro ⟨d, hd, lp, ⟨hlp, hm⟩, rfl⟩
    exact ⟨d, hd, lp, hlp, hm, rfl⟩
  · rintro ⟨d, hd, lp, hlp, hm, rfl⟩
    exact ⟨d, hd, lp, ⟨hlp, hm⟩, rfl⟩

/-- Membership in the enabled scanner's result, characterized. -/
theorem mem_scan_for_secrets {s : String} {docs : List Document} :
    s ∈ scan_for_secrets true docs ↔
      ∃ d ∈ docs, ∃ lp ∈ patterns, hasMatch lp.2 d.page_content = true ∧ s = mkLabel lp.1 := by
  show s ∈ (scanFindings docs).dedup ↔ _
  rw [List.mem_dedup]
  exact mem_scanFindings

/-- The enabled scanner's result has no duplicates. -/
theorem scan_for_secrets_nodup (docs : List Document) :
    (scan_for_secrets true docs).Nodup := List.nodup_dedup _

/-! ### Case-invariance of every pattern in the registry -/

/-- Every token of the email pattern is case-invariant. -/
theorem emailPat_tokCI : ∀ a ∈ emailPat, ∀ t ∈ a, TokCI t := by
  intro a ha t ht
  simp only [emailPat, List.mem_singleton] at ha
  subst ha
  simp only [List.mem_cons, List.not_mem_nil, or_false] at ht
  rcases ht with rfl | rfl | rfl | rfl | rfl | rfl | rfl <;>
    first
      | exact wb_tokCI
      | exact cls_tokCI emailLocalC_ci _ _
      | exact cls_tokCI (litC_ci '@' (by decide) (by decide)) _ _
      | exact cls_tokCI emailDomC_ci _ _
      | exact cls_tokCI (litC_ci '.' (by decide) (by decide)) _ _
      | exact cls_tokCI tldC_ci _ _

/-- Every token of the SSN pattern is case-invariant. -/
theorem ssnPat_tokCI : ∀ a ∈ ssnPat, ∀ t ∈ a, TokCI t := by
  intro a ha t ht
  simp only [ssnPat, List.mem_singleton] at ha
  subst ha
  simp only [List.mem_cons, List.not_mem_nil, or_false] at ht
  rcases ht with rfl | rfl | rfl | rfl | rfl | rfl | rfl <;>
    first
      | exact wb_tokCI
      | exact cls_tokCI digitC_ci _ _
      | exact cls_tokCI (litC_ci '-' (by decide) (by decide)) _ _

/-- Every token of the credit-card pattern is case-invariant. -/
theorem ccPat_tokCI : ∀ a ∈ ccPat, ∀ t ∈ a, TokCI t := by
  intro a ha t ht
  simp only [ccPat, List.mem_singleton] at ha
  subst ha
  simp only [List.mem_cons, List.not_mem_nil, or_false] at ht
  rcases ht with rfl | rfl | rfl | rfl | rfl | rfl | rfl | rfl | rfl | rfl <;>
    first
      | exact wb_tokCI
      | exact cls_tokCI digitC_ci _ _
      | exact cls_tokCI ccSepC_ci _ _

/-- Every token of the API-key pattern is case-invariant. -/
theorem apiKeyPat_tokCI : ∀ a ∈ apiKeyPat, ∀ t ∈ a, TokCI t := by
  intro a ha t ht
  simp only [apiKeyPat, List.mem_cons, List.not_mem_nil, or_false] at ha
  rcases ha with rfl | rfl | rfl <;>
    simp only [List.mem_cons, List.not_mem_nil, or_false] at ht
  · rcases ht with rfl | rfl | rfl | rfl | rfl | rfl | rfl | rfl | rfl <;>
      first
        | exact cls_tokCI (iLitC_ci 'a' (by decide) (by decide)) _ _
        | exact cls_tokCI (iLitC_ci 'p' (by decide) (by decide)) _ _
        | exact cls_tokCI (iLitC_ci 'i' (by decide) (by decide)) _ _
        | exact cls_tokCI undHyphC_ci _ _
        | exact cls_tokCI (iLitC_ci 'k' (by decide) (by decide)) _ _
        | exact cls_tokCI (iLitC_ci 'e' (by decide) (by decide)) _ _
        | exact cls_tokCI (iLitC_ci 'y' (by decide) (by decide)) _ _
        | exact cls_tokCI apiSepC_ci _ _
        | exact cls_tokCI apiKeyC_ci _ _
  · rcases ht with rfl | rfl | rfl | rfl | rfl | rfl | rfl | rfl <;>
      first
        | exact cls_tokCI (iLitC_ci 'a' (by decide) (by decide)) _ _
        | exact cls_tokCI (iLitC_ci 'p' (by decide) (by decide)) _ _
        | exact cls_tokCI (iLitC_ci 'i' (by decide) (by decide)) _ _
        | exact cls_tokCI (iLitC_ci 'k' (by decide) (by decide)) _ _
        | exact cls_tokCI (iLitC_ci 'e' (by decide) (by decide)) _ _
        | exact cls_tokCI (iLitC_ci 'y' (by decide) (by decide)) _ _
        | exact cls_tokCI apiSepC_ci _ _
        | exact cls_tokCI apiKeyC_ci _ _
  · rcases ht with rfl | rfl | rfl | rfl | rfl | rfl | rfl | rfl | rfl | rfl | rfl | rfl <;>
      first
        | exact cls_tokCI (iLitC_ci 'a' (by decide) (by decide)) _ _
        | exact cls_tokCI (iLitC_ci 'p' (by decide) (by decide)) _ _
        | exact cls_tokCI (iLitC_ci 'i' (by decide) (by decide)) _ _
        | exact cls_tokCI undHyphC_ci _ _
        | exact cls_tokCI (iLitC_ci 's' (by decide) (by decide)) _ _
        | exact cls_tokCI (iLitC_ci 'e' (by decide) (by decide)) _ _
        | exact cls_tokCI (iLitC_ci 'c' (by decide) (by decide)) _ _
        | exact cls_tokCI (iLitC_ci 'r' (by decide) (by decide)) _ _
        | exact cls_tokCI (iLitC_ci 't' (by decide) (by decide)) _ _
        | exact cls_tokCI apiSepC_ci _ _
        | exact cls_tokCI apiKeyC_ci _ _

/-- Every token of the AWS access-key pattern is case-invariant. -/
theorem awsPat_tokCI : ∀ a ∈ awsPat, ∀ t ∈ a, TokCI t := by
  intro a ha t ht
  simp only [awsPat, List.mem_singleton] at ha
  subst ha
  simp only [List.mem_cons, List.not_mem_nil, or_false] at ht
  rcases ht with rfl | rfl | rfl | rfl | rfl | rfl | rfl <;>
    first
      | exact wb_tokCI
      | exact cls_tokCI (iLitC_ci 'a' (by decide) (by decide)) _ _
      | exact cls_tokCI (iLitC_ci 'k' (by decide) (by decide)) _ _
      | exact cls_tokCI (iLitC_ci 'i' (by decide) (by decide)) _ _
      | exact cls_tokCI alnumC_ci _ _

/-- Every token of the phone-number pattern is case-invariant. -/
theorem phonePat_tokCI : ∀ a ∈ phonePat, ∀ t ∈ a, TokCI t := by
  intro a ha t ht
  simp only [phonePat, List.mem_singleton] at ha
  subst ha
  simp only [List.mem_cons, List.not_mem_nil, or_false] at ht
  rcases ht with rfl | rfl | rfl | rfl | rfl | rfl | rfl | rfl <;>
    first
      | exact wb_tokCI
      | exact cls_tokCI digitC_ci _ _
      | exact cls_tokCI phoneSepC_ci _ _

/-- Every token of the IP-address pattern is case-invariant. -/
theorem ipPat_tokCI : ∀ a ∈ ipPat, ∀ t ∈ a, TokCI t := by
  intro a ha t ht
  simp only [ipPat, List.mem_singleton] at ha
  subst ha
  simp only [List.mem_cons, List.not_mem_nil, or_false] at ht
  rcases ht with rfl | rfl | rfl | rfl | rfl | rfl | rfl | rfl | rfl <;>
    first
      | exact wb_tokCI
      | exact cls_tokCI digitC_ci _ _
      | exact cls_tokCI (litC_ci '.' (by decide) (by decide)) _ _

/-- Every token of every pattern in the registry is case-invariant. -/
theorem patterns_tokCI : ∀ lp ∈ patterns, ∀ a ∈ lp.2, ∀ t ∈ a, TokCI t := by
  intro lp hlp
  simp only [patterns, List.mem_cons, List.not_mem_nil, or_false] at hlp
  rcases hlp with rfl | rfl | rfl | rfl | rfl | rfl | rfl
  · exact emailPat_tokCI
  · exact ssnPat_tokCI
  · exact ccPat_tokCI
  · exact apiKeyPat_tokCI
  · exact awsPat_tokCI
  · exact phonePat_tokCI
  · exact ipPat_tokCI

/-- `hasMatch` is invariant under a word-preserving, class-preserving character map. -/
theorem hasMatch_map (g : Char → Char) (hg : ∀ c, wordC (g c) = wordC c)
    (alts : List (List Tok)) (halts : ∀ a ∈ alts, ∀ t ∈ a, TokMapInv g t) (s : String) :
    hasMatch alts (String.mk (s.data.map g)) = hasMatch alts s := by
  have h := searchFrom_map g hg alts halts s.data none
  simpa using h

/-- The ASCII per-character upper-casing of a string: `Char.toUpper` on
each character, which shifts the ASCII letters and fixes everything else.
This is NOT Python's full `str.upper()`, which applies the Unicode case
mapping — for the sharp s (U+00DF) that mapping produces the two-character
string `SS` and changes which patterns match; `pyUpper` below captures
that behavior for the refutation. -/
def strUpper (s : String) : String := String.mk (s.data.map Char.toUpper)

/-- The ASCII per-character lower-casing of a string: `Char.toLower` on
each character (ASCII letters shifted, everything else fixed); the same
caveat as for `strUpper` applies with respect to Python's `str.lower()`. -/
def strLower (s : String) : String := String.mk (s.data.map Char.toLower)

/-- Apply the ASCII per-character upper-casing to a document's text. -/
def docUpper (d : Document) : Document := ⟨strUpper d.page_content⟩

/-- Apply the ASCII per-character lower-casing to a document's text. -/
def docLower (d : Document) : Document := ⟨strLower d.page_content⟩

/-- Python's `str.upper()` on the characters of the refuting input below:
the Unicode uppercase mapping sends the sharp s (U+00DF, code 223) to the
two-character string `SS`, and agrees with `Char.toUpper` on ASCII
characters (verified against CPython: the uppercase of the sharp s is
`SS`).  Only these characters occur in the input it is applied to. -/
def pyUpperChar (c : Char) : List Char :=
  if c.toNat = 223 then ['S', 'S'] else [Char.toUpper c]

/-- Python's `str.upper()` of a whole string, per `pyUpperChar`. -/
def pyUpper (s : String) : String := String.mk (s.data.flatMap pyUpperChar)

/-- The findings list is unchanged when every document is upper-cased. -/
theorem scanFindings_upper (docs : List Document) :
    scanFindings (docs.map docUpper) = scanFindings docs := by
  induction docs with
  | nil => rfl
  | cons d ds ih =>
    simp only [List.map_cons, scanFindings, List.flatMap_cons] at ih ⊢
    rw [ih]
    congr 1
    congr 1
    refine List.filter_congr (fun lp hlp => ?_)
    exact hasMatch_map Char.toUpper (fun c => (wordC_ci c).1) lp.2
      (fun a ha t ht => (patterns_tokCI lp hlp a ha t ht).1) d.page_content

/-- The findings list is unchanged when every document is lower-cased. -/
theorem scanFindings_lower (docs : List Document) :
    scanFindings (docs.map docLower) = scanFindings docs := by
  induction docs with
  | nil => rfl
  | cons d ds ih =>
    simp only [List.map_cons, scanFindings, List.flatMap_cons] at ih ⊢
    rw [ih]
    congr 1
    congr 1
    refine List.filter_congr (fun lp hlp => ?_)
    exact hasMatch_map Char.toLower (fun c => (wordC_ci c).2) lp.2
      (fun a ha t ht => (patterns_tokCI lp hlp a ha t ht).2) d.page_content

/-- The seven fixed label strings the spec allows in the scanner's output. -/
def fixedLabels : List String :=
  ["Email Address pattern detected in source chunk",
   "SSN pattern detected in source chunk",
   "Credit Card pattern detected in source chunk",
   "API Key Pattern pattern detected in source chunk",
   "AWS Access Key pattern detected in source chunk",
   "Phone Number pattern detected in source chunk",
   "IP Address pattern detected in source chunk"]

/-- Every registry label yields one of the seven fixed label strings. -/
theorem mkLabel_mem_fixedLabels : ∀ lp ∈ patterns, mkLabel lp.1 ∈ fixedLabels := by
  intro lp hlp
  simp only [patterns, List.mem_cons, List.not_mem_nil, or_false] at hlp
  rcases hlp with rfl | rfl | rfl | rfl | rfl | rfl | rfl <;> decide

/-! ### The researcher: constructor validation, vectorstore policy, query guard
(src/main.py lines 22-66, 89-115, 178-203) -/

/-- The Python exceptions raised by `SecureRAGResearcher`. -/
inductive PyError where
  | valueError : String → PyError
  | fileNotFoundError : String → PyError
deriving DecidableEq

/-- The message of the ValueError raised when `OPENAI_API_KEY` is not set
(src/main.py lines 60-63). -/
def keyErrorMsg : String :=
  "OPENAI_API_KEY environment variable not set. Please set it before running."

/-- The spec's `PipelineNotInitializedError`: the ValueError the code raises
when `query` runs before the QA chain exists (src/main.py line 189). -/
def PipelineNotInitializedError : PyError :=
  PyError.valueError "QA chain not initialized. Call setup_qa_chain first."

/-- The spec's `DocumentNotFoundError` for a path: the FileNotFoundError the
code raises when the PDF path does not exist (src/main.py line 66). -/
def DocumentNotFoundError (pdf_path : String) : PyError :=
  PyError.fileNotFoundError ("PDF file not found: " ++ pdf_path)

/-- The response of the retrieval QA chain, treated as an opaque collaborator. -/
structure QAResponse where
  result : String
  source_documents : List Document

/-- The QA chain itself: an opaque question-to-response function. -/
def QAChain : Type := String → QAResponse

/-- The state of a constructed `SecureRAGResearcher` (the fields set by
`__init__`, src/main.py lines 44-53; the float-typed `temperature` field,
which no claim concerns, is not modelled). -/
structure Researcher where
  pdf_path : String
  chunk_size : Nat
  chunk_overlap : Nat
  model_name : String
  vectorstore_path : String
  enable_pii_detection : Bool
  vectorstore : Option (List Document)
  qa_chain : Option QAChain

/-- `vectorstore_path or "./vectorstore"` of src/main.py line 49
(`None` and the empty string are falsy in Python). -/
def resolveVectorstorePath : Option String → String
  | none => "./vectorstore"
  | some s => if s.isEmpty then "./vectorstore" else s

/-- `not os.getenv("OPENAI_API_KEY")` of src/main.py line 59: true when the
variable is unset or set to the empty string. -/
def envKeyFalsy : Option String → Bool
  | none => true
  | some s => s.isEmpty

/-- `SecureRAGResearcher.__init__` including `_validate_environment`
(src/main.py lines 22-66): checks the API key, then the PDF path, and only
then returns the constructed instance, whose pipeline state starts empty.
`env_key` is the value of the `OPENAI_API_KEY` environment variable and
`pdf_exists` is `Path(pdf_path).exists()`. -/
def mkResearcher (env_key : Option String) (pdf_exists : Bool) (pdf_path : String)
    (chunk_size chunk_overlap : Nat) (model_name : String)
    (vectorstore_path : Option String) (enable_pii_detection : Bool) :
    Except PyError Researcher :=
  if envKeyFalsy env_key then Except.error (PyError.valueError keyErrorMsg)
  else if !pdf_exists then Except.error (DocumentNotFoundError pdf_path)
  else Except.ok
    { pdf_path := pdf_path
      chunk_size := chunk_size
      chunk_overlap := chunk_overlap
      model_name := model_name
      vectorstore_path := resolveVectorstorePath vectorstore_path
      enable_pii_detection := enable_pii_detection
      vectorstore := none
      qa_chain := none }

/-- `__init__` with the readability of the document source made explicit.
`_validate_environment` (src/main.py lines 57-66) consults only
`os.getenv("OPENAI_API_KEY")` and `Path(self.pdf_path).exists()`; for an
existing file, `exists()` is true whether or not the process may read it,
so construction is the same function of `pdf_exists` for readable and
unreadable sources alike — the readability flag is accepted and ignored,
exactly as the code never reads the file during validation.  (An
unreadable source only fails later, when `PyPDFLoader` opens it in
`load_and_process_document`.) -/
def mkResearcherRead (env_key : Option String) (pdf_exists _pdf_readable : Bool)
    (pdf_path : String) (chunk_size chunk_overlap : Nat) (model_name : String)
    (vectorstore_path : Option String) (enable_pii_detection : Bool) :
    Except PyError Researcher :=
  mkResearcher env_key pdf_exists pdf_path chunk_size chunk_overlap model_name
    vectorstore_path enable_pii_detection

/-- The externally observable actions of `create_vectorstore`. -/
inductive VSEvent where
  | loadLocal : String → VSEvent
  | buildIndex : List Document → VSEvent
  | saveLocal : String → VSEvent

/-- Is the event an embedding build? -/
def VSEvent.isBuild : VSEvent → Bool
  | VSEvent.buildIndex _ => true
  | _ => false

/-- Is the event a save to disk? -/
def VSEvent.isSave : VSEvent → Bool
  | VSEvent.saveLocal _ => true
  | _ => false

/-- `create_vectorstore` of src/main.py lines 89-115 as its trace of external
actions: load the persisted index when it exists and recreation is not
forced, otherwise build the index from the chunks and save it.
`vectorstore_exists` is `Path(self.vectorstore_path).exists()`. -/
def create_vectorstore (vectorstore_path : String) (vectorstore_exists : Bool)
    (chunks : List Document) (force_recreate : Bool) : List VSEvent :=
  if vectorstore_exists && !force_recreate then [VSEvent.loadLocal vectorstore_path]
  else [VSEvent.buildIndex chunks, VSEvent.saveLocal vectorstore_path]

/-- The value returned by `query`, with the optional `security_alerts` key
(src/main.py lines 178-203). -/
structure QueryResponse where
  result : String
  source_documents : List Document
  security_alerts : Option (List String)

/-- `SecureRAGResearcher.query` of src/main.py lines 178-203: fails when the
QA chain is not set up, otherwise invokes the chain and, when PII detection
is enabled and the scan finds something, attaches the security alerts. -/
def Researcher.query (r : Researcher) (question : String) : Except PyError QueryResponse :=
  match r.qa_chain with
  | none => Except.error PipelineNotInitializedError
  | some chain =>
    let response := chain question
    if r.enable_pii_detection then
      let security_findings := scan_for_secrets r.enable_pii_detection response.source_documents
      if !security_findings.isEmpty then
        Except.ok ⟨response.result, response.source_documents, some security_findings⟩
      else
        Except.ok ⟨response.result, response.source_documents, none⟩
    else
      Except.ok ⟨response.result, response.source_documents, none⟩

/-! ### Chunker, modelled from the spec

The chunking in `load_and_process_document` (src/main.py lines 68-87) is
delegated to the external `RecursiveCharacterTextSplitter`, whose code is
not part of this repository, so the chunker is modelled from the
specification text. -/

/-- Modelled from the spec: the per-page window loop of the Chunker
(spec section 4.1) — produce windows of length `chunkSize` over the page's
character text, advancing the window start by `chunkSize - overlap` each
step; the final window may be shorter (the remainder); an empty page
yields no chunks.  The implementation of the splitter is missing from
src/ (only its caller `load_and_process_document` is present).  `fuel`
bounds the recursion; `text.length` is always sufficient when
`overlap < chunkSize`. -/
def chunkPage : Nat → Nat → Nat → List Char → List (List Char)
  | 0, _, _, _ => []
  | Nat.succ _, _, _, [] => []
  | Nat.succ fuel, chunkSize, overlap, text =>
    if text.length ≤ chunkSize then [text]
    else text.take chunkSize :: chunkPage fuel chunkSize overlap (text.drop (chunkSize - overlap))

/-- Modelled from the spec: `split(document, chunkSize, overlap)` of spec
section 4.1 — windows never span page boundaries, so each page is chunked
independently; the result keeps each page's chunk run separate so that
within-page adjacency is visible. -/
def chunker_split (chunkSize overlap : Nat) (pages : List String) : List (List (List Char)) :=
  pages.map fun page => chunkPage page.data.length chunkSize overlap page.data

/-- Every chunk produced from a page is at most `chunkSize` long. -/
theorem chunkPage_length_le (chunkSize overlap : Nat) :
    ∀ (fuel : Nat) (text : List Char), ∀ c ∈ chunkPage fuel chunkSize overlap text,
      c.length ≤ chunkSize := by
  intro fuel
  induction fuel with
  | zero => intro text c hc; simp [chunkPage] at hc
  | succ fuel ih =>
    intro text c hc
    match text with
    | [] => simp [chunkPage] at hc
    | x :: xs =>
      simp only [chunkPage] at hc
      split at hc
      · rename_i hle
        rw [List.mem_singleton] at hc
        subst hc
        exact hle
      · rename_i hgt
        rcases List.mem_cons.mp hc with rfl | hmem
        · rw [List.length_take]
          omega
        · exact ih _ c hmem

/-- Consecutive chunks of the same page overlap: the last `overlap`
characters of a chunk equal the first `overlap` characters of the next. -/
theorem chunkPage_chain (chunkSize overlap : Nat) (ho : overlap < chunkSize) :
    ∀ (fuel : Nat) (text : List Char), text.length ≤ fuel →
      List.Chain' (fun a b => a.drop (a.length - overlap) = b.take overlap)
        (chunkPage fuel chunkSize overlap text) := by
  intro fuel
  induction fuel with
  | zero => intro text _; simp [chunkPage]
  | succ fuel ih =>
    intro text hlen
    match text with
    | [] => simp [chunkPage]
    | x :: xs =>
      simp only [chunkPage]
      split
      · exact List.chain'_singleton _
      · rename_i hgt
        have hrlen : ((x :: xs).drop (chunkSize - overlap)).length
            = (x :: xs).length - (chunkSize - overlap) := List.length_drop _ _
        have hrest_le : ((x :: xs).drop (chunkSize - overlap)).length ≤ fuel := by omega
        refine List.chain'_cons'.mpr ⟨?_, ih _ hrest_le⟩
        intro b hb
        have hb2 : b.take overlap = ((x :: xs).drop (chunkSize - overlap)).take overlap := by
          rcases fuel with _ | f
          · simp [chunkPage] at hb
          · rcases hr : (x :: xs).drop (chunkSize - overlap) with _ | ⟨y, ys⟩
            · rw [hr] at hb
              simp [chunkPage] at hb
            · rw [hr] at hb
              simp only [chunkPage] at hb
              split at hb
              · simp only [List.head?_cons, Option.mem_def, Option.some_inj] at hb
                subst hb
                rfl
              · simp only [List.head?_cons, Option.mem_def, Option.some_inj] at hb
                subst hb
                rw [List.take_take]
                congr 1
                exact Nat.min_eq_left (Nat.le_of_lt ho)
        rw [hb2, List.length_take]
        have hmin : min chunkSize (x :: xs).length = chunkSize := by omega
        rw [hmin, List.drop_take]
        congr 1
        omega

/-! ### Vector-index top-k query, modelled from the spec

The similarity search in `setup_qa_chain` (src/main.py lines 117-137) is
delegated to the external FAISS retriever with `search_kwargs` k = 4; the
retrieval algorithm itself is not part of this repository, so
`VectorIndex.query` is modelled from spec section 4.2. -/

/-- The retrieval depth configured in src/main.py line 132 and
`RETRIEVAL_TOP_K` in src/Config.py. -/
def retrievalTopK : Nat := 4

/-- An embedding vector, treated as opaque numeric data. -/
def Vec : Type := List Int

/-- Insert a scored chunk into a descending-score list, after every
element of strictly greater score and before the first element of equal
or smaller score; since each element is inserted into the sorted run of
the elements after it, ties keep their original insertion order (stable). -/
def insertRanked {α : Type} (x : α × Int) : List (α × Int) → List (α × Int)
  | [] => [x]
  | y :: ys => if x.2 < y.2 then y :: insertRanked x ys else x :: y :: ys

/-- Stable insertion sort by descending score: elements with equal
scores appear in their original order. -/
def rankDesc {α : Type} : List (α × Int) → List (α × Int)
  | [] => []
  | x :: xs => insertRanked x (rankDesc xs)

example : rankDesc [((0 : Nat), (5 : Int)), (1, 5)] = [(0, 5), (1, 5)] := by decide

example : rankDesc [((0 : Nat), (3 : Int)), (1, 7), (2, 3), (3, 7)]
    = [(1, 7), (3, 7), (0, 3), (2, 3)] := by decide

/-- Modelled from the spec: `VectorIndex.query(index, queryVector, k)` of
spec section 4.2 — score every indexed chunk against the query vector with
the similarity function, order descending by score (ties stable), and
return the first `k`.  The FAISS implementation is missing from src/
(only its caller `setup_qa_chain` is present). -/
def vindex_query {α : Type} (sim : Vec → Vec → Int) (index : List (α × Vec))
    (queryVector : Vec) (k : Nat) : List (α × Int) :=
  (rankDesc (index.map fun cv => (cv.1, sim cv.2 queryVector))).take k

/-- Ranked insertion adds exactly one element. -/
theorem length_insertRanked {α : Type} (x : α × Int) :
    ∀ l : List (α × Int), (insertRanked x l).length = l.length + 1 := by
  intro l
  induction l with
  | nil => rfl
  | cons y ys ih =>
    show (if x.2 < y.2 then y :: insertRanked x ys else x :: y :: ys).length = _
    split
    · simp only [List.length_cons, ih]
    · rfl

/-- Ranking preserves length. -/
theorem length_rankDesc {α : Type} :
    ∀ l : List (α × Int), (rankDesc l).length = l.length := by
  intro l
  induction l with
  | nil => rfl
  | cons x xs ih =>
    show (insertRanked x (rankDesc xs)).length = xs.length + 1
    rw [length_insertRanked, ih]

/-- Membership in a ranked insertion. -/
theorem mem_insertRanked {α : Type} {x z : α × Int} :
    ∀ {l : List (α × Int)}, z ∈ insertRanked x l ↔ z = x ∨ z ∈ l := by
  intro l
  induction l with
  | nil => simp [insertRanked]
  | cons y ys ih =>
    show z ∈ (if x.2 < y.2 then y :: insertRanked x ys else x :: y :: ys) ↔ _
    split
    · simp only [List.mem_cons, ih]
      tauto
    · simp

/-- Ranked insertion preserves the descending-score invariant. -/
theorem pairwise_insertRanked {α : Type} (x : α × Int) :
    ∀ {l : List (α × Int)}, List.Pairwise (fun a b => b.2 ≤ a.2) l →
      List.Pairwise (fun a b => b.2 ≤ a.2) (insertRanked x l) := by
  intro l
  induction l with
  | nil => intro _; simp [insertRanked]
  | cons y ys ih =>
    intro hp
    rcases List.pairwise_cons.mp hp with ⟨hy, hys⟩
    show List.Pairwise _ (if x.2 < y.2 then y :: insertRanked x ys else x :: y :: ys)
    split
    · rename_i hlt
      refine List.pairwise_cons.mpr ⟨?_, ih hys⟩
      intro z hz
      rcases mem_insertRanked.mp hz with rfl | hz2
      · exact Int.le_of_lt hlt
      · exact hy z hz2
    · rename_i hge
      refine List.pairwise_cons.mpr ⟨?_, hp⟩
      intro z hz
      rcases List.mem_cons.mp hz with rfl | hz2
      · exact Int.not_lt.mp hge
      · exact Int.le_trans (hy z hz2) (Int.not_lt.mp hge)

/-- The ranked list is sorted by descending score. -/
theorem pairwise_rankDesc {α : Type} :
    ∀ l : List (α × Int), List.Pairwise (fun a b => b.2 ≤ a.2) (rankDesc l) := by
  intro l
  induction l with
  | nil => exact List.Pairwise.nil
  | cons x xs ih => exact pairwise_insertRanked x ih

/-! ### The claims -/

/-- C1: for every list of chunks, when scanning is enabled, every element
of the result of `scan_for_secrets` is one of the seven fixed label
strings of the form `<PatternName> pattern detected in source chunk`; the
matched substrings themselves never appear in the result. -/
theorem C1_scan_labels_fixed (docs : List Document) (s : String)
    (hs : s ∈ scan_for_secrets true docs) : s ∈ fixedLabels := by
  rcases mem_scan_for_secrets.mp hs with ⟨d, _, lp, hlp, _, rfl⟩
  exact mkLabel_mem_fixedLabels lp hlp

/-- Witness for C1 at a concrete chunk list containing an email address. -/
theorem C1_scan_labels_fixed_witness :
    mkLabel "Email Address" ∈ scan_for_secrets true [⟨"a@b.io"⟩] ∧
    mkLabel "Email Address" ∈ fixedLabels :=
  ⟨by decide, C1_scan_labels_fixed [⟨"a@b.io"⟩] (mkLabel "Email Address") (by decide)⟩

/-- C2: when scanning is enabled, every registry pattern that matches at
least once in at least one chunk contributes exactly one label to the
result, and scanning an empty chunk list yields the empty result. -/
theorem C2_scan_exactly_one_label :
    (∀ (docs : List Document) (l : String) (pat : List (List Tok)),
        (l, pat) ∈ patterns →
        (docs.any fun d => hasMatch pat d.page_content) = true →
        List.count (mkLabel l) (scan_for_secrets true docs) = 1) ∧
    scan_for_secrets true ([] : List Document) = [] := by
  constructor
  · intro docs l pat hlp hmatch
    rcases List.any_eq_true.mp hmatch with ⟨d, hd, hm⟩
    have hmem : mkLabel l ∈ scan_for_secrets true docs :=
      mem_scan_for_secrets.mpr ⟨d, hd, (l, pat), hlp, hm, rfl⟩
    exact List.count_eq_one_of_mem (scan_for_secrets_nodup docs) hmem
  · rfl

/-- Witness for C2: two chunks both containing an email yield one label. -/
theorem C2_scan_exactly_one_label_witness :
    (("Email Address", emailPat) ∈ patterns) ∧
    ((([⟨"a@b.io"⟩, ⟨"c@d.io e@f.io"⟩] : List Document).any
        fun d => hasMatch emailPat d.page_content) = true) ∧
    List.count (mkLabel "Email Address")
      (scan_for_secrets true [⟨"a@b.io"⟩, ⟨"c@d.io e@f.io"⟩]) = 1 :=
  ⟨List.mem_cons_self _ _, by decide,
   C2_scan_exactly_one_label.1 [⟨"a@b.io"⟩, ⟨"c@d.io e@f.io"⟩] "Email Address" emailPat
     (List.mem_cons_self _ _) (by decide)⟩

/-- C3: when scanning is disabled, `scan_for_secrets` returns the empty
result unconditionally, for every chunk list, including chunk lists that
contain sensitive patterns; the guard short-circuits before any pattern
evaluation (src/main.py lines 152-153). -/
theorem C3_scan_disabled (docs : List Document) :
    scan_for_secrets false docs = [] := rfl

/-- C4: for every document, splitting with chunk size `s` and overlap `o`
(`0 < s`, `o < s`) yields chunks of length at most `s`, and the last `o`
characters of each chunk equal the first `o` characters of the next chunk
of the same page. -/
theorem C4_chunk_length_overlap (chunkSize overlap : Nat) (pages : List String)
    (_hpos : 0 < chunkSize) (ho : overlap < chunkSize) :
    ∀ pageChunks ∈ chunker_split chunkSize overlap pages,
      (∀ c ∈ pageChunks, c.length ≤ chunkSize) ∧
      List.Chain' (fun a b => a.drop (a.length - overlap) = b.take overlap) pageChunks := by
  intro pc hpc
  rcases List.mem_map.mp hpc with ⟨page, _, rfl⟩
  exact ⟨chunkPage_length_le _ _ _ _, chunkPage_chain _ _ ho _ _ (Nat.le_refl _)⟩

/-- Witness for C4: an 8-character page, chunk size 5, overlap 2. -/
theorem C4_chunk_length_overlap_witness :
    0 < 5 ∧ 2 < 5 ∧
    ((∀ c ∈ ["abcde".data, "defgh".data], c.length ≤ 5) ∧
     List.Chain' (fun a b => a.drop (a.length - 2) = b.take 2)
       ["abcde".data, "defgh".data]) :=
  ⟨by decide, by decide,
   C4_chunk_length_overlap 5 2 ["abcdefgh"] (by decide) (by decide)
     ["abcde".data, "defgh".data] (by decide)⟩

/-- C5: `create_vectorstore` loads the persisted index, with no embedding
build and no save, exactly when the index exists and recreation is not
forced; otherwise it builds from the chunks and persists. -/
theorem C5_vectorstore_reuse (path : String) (vectorstore_exists : Bool)
    (chunks : List Document) (force_recreate : Bool) :
    (vectorstore_exists = true → force_recreate = false →
      create_vectorstore path vectorstore_exists chunks force_recreate
          = [VSEvent.loadLocal path] ∧
      ∀ e ∈ create_vectorstore path vectorstore_exists chunks force_recreate,
        e.isBuild = false ∧ e.isSave = false) ∧
    ((vectorstore_exists = false ∨ force_recreate = true) →
      create_vectorstore path vectorstore_exists chunks force_recreate
          = [VSEvent.buildIndex chunks, VSEvent.saveLocal path]) := by
  constructor
  · rintro rfl rfl
    refine ⟨rfl, ?_⟩
    intro e he
    rcases List.mem_singleton.mp he with rfl
    exact ⟨rfl, rfl⟩
  · rintro (rfl | rfl)
    · rfl
    · cases vectorstore_exists <;> rfl

/-- Witness for C5: both branches at concrete inputs. -/
theorem C5_vectorstore_reuse_witness :
    (create_vectorstore "./vectorstore" true [⟨"text"⟩] false
        = [VSEvent.loadLocal "./vectorstore"] ∧
     ∀ e ∈ create_vectorstore "./vectorstore" true [⟨"text"⟩] false,
       e.isBuild = false ∧ e.isSave = false) ∧
    create_vectorstore "./vectorstore" false [⟨"text"⟩] false
        = [VSEvent.buildIndex [⟨"text"⟩], VSEvent.saveLocal "./vectorstore"] :=
  ⟨(C5_vectorstore_reuse "./vectorstore" true [⟨"text"⟩] false).1 rfl rfl,
   (C5_vectorstore_reuse "./vectorstore" false [⟨"text"⟩] false).2 (Or.inl rfl)⟩

/-- C6: calling the query operation while the QA chain has not been set up
fails with `PipelineNotInitializedError` instead of attempting to answer. -/
theorem C6_query_requires_chain (r : Researcher) (question : String)
    (h : r.qa_chain = none) :
    r.query question = Except.error PipelineNotInitializedError := by
  unfold Researcher.query
  rw [h]

/-- Witness for C6: a freshly constructed researcher has no QA chain and
its query fails. -/
theorem C6_query_requires_chain_witness :
    ({ pdf_path := "doc.pdf", chunk_size := 1000, chunk_overlap := 200,
       model_name := "gpt-4o", vectorstore_path := "./vectorstore",
       enable_pii_detection := false, vectorstore := none,
       qa_chain := none } : Researcher).qa_chain = none ∧
    ({ pdf_path := "doc.pdf", chunk_size := 1000, chunk_overlap := 200,
       model_name := "gpt-4o", vectorstore_path := "./vectorstore",
       enable_pii_detection := false, vectorstore := none,
       qa_chain := none } : Researcher).query "What is in section 4?"
        = Except.error PipelineNotInitializedError :=
  ⟨rfl,
   C6_query_requires_chain
     { pdf_path := "doc.pdf", chunk_size := 1000, chunk_overlap := 200,
       model_name := "gpt-4o", vectorstore_path := "./vectorstore",
       enable_pii_detection := false, vectorstore := none,
       qa_chain := none } "What is in section 4?" rfl⟩

/-- C7 (amended): construction fails fast with `DocumentNotFoundError`,
and no instance (hence no pipeline state) is ever produced, whenever the
document source path is missing (`Path(...).exists()` false); readability
of an existing source is not part of the validation — see the
counterexample for the claim's original "or unreadable" case. -/
theorem C7_init_fails_fast (env_key : Option String) (pdf_path : String)
    (chunk_size chunk_overlap : Nat) (model_name : String)
    (vectorstore_path : Option String) (enable_pii_detection : Bool)
    (henv : envKeyFalsy env_key = false) :
    mkResearcher env_key false pdf_path chunk_size chunk_overlap model_name
        vectorstore_path enable_pii_detection
        = Except.error (DocumentNotFoundError pdf_path) ∧
    ∀ r : Researcher,
      mkResearcher env_key false pdf_path chunk_size chunk_overlap model_name
          vectorstore_path enable_pii_detection ≠ Except.ok r := by
  have h1 : mkResearcher env_key false pdf_path chunk_size chunk_overlap model_name
      vectorstore_path enable_pii_detection
      = Except.error (DocumentNotFoundError pdf_path) := by
    unfold mkResearcher
    rw [henv]
    rfl
  refine ⟨h1, ?_⟩
  intro r hr
  rw [h1] at hr
  exact Except.noConfusion hr

/-- Witness for C7: key set, PDF missing. -/
theorem C7_init_fails_fast_witness :
    envKeyFalsy (some "test-key-12345") = false ∧
    (mkResearcher (some "test-key-12345") false "nonexistent.pdf" 1000 200 "gpt-4o" none false
        = Except.error (DocumentNotFoundError "nonexistent.pdf") ∧
     ∀ r : Researcher,
       mkResearcher (some "test-key-12345") false "nonexistent.pdf" 1000 200 "gpt-4o" none false
           ≠ Except.ok r) :=
  ⟨by decide,
   C7_init_fails_fast (some "test-key-12345") "nonexistent.pdf" 1000 200 "gpt-4o" none false
     (by decide)⟩

/-- Counterexample to C7 as originally stated: for a document source that
exists but is unreadable (`exists()` true, readability false), construction
does not fail with `DocumentNotFoundError` — it succeeds outright, because
`_validate_environment` checks only existence. -/
theorem C7_counterexample :
    mkResearcherRead (some "test-key-12345") true false "protected.pdf" 1000 200 "gpt-4o"
        none false
      = Except.ok
        { pdf_path := "protected.pdf", chunk_size := 1000, chunk_overlap := 200,
          model_name := "gpt-4o", vectorstore_path := "./vectorstore",
          enable_pii_detection := false, vectorstore := none, qa_chain := none } ∧
    mkResearcherRead (some "test-key-12345") true false "protected.pdf" 1000 200 "gpt-4o"
        none false
      ≠ Except.error (DocumentNotFoundError "protected.pdf") :=
  ⟨rfl, fun h => Except.noConfusion h⟩

/-- C8: top-k retrieval returns at most `k` ranked results, fewer exactly
when the index holds fewer than `k` vectors, sorted by descending
similarity score; querying an empty index with the configured default
`k = 4` returns the empty ranked sequence. -/
theorem C8_topk_retrieval (α : Type) (sim : Vec → Vec → Int) (index : List (α × Vec))
    (queryVector : Vec) (k : Nat) :
    (vindex_query sim index queryVector k).length = min k index.length ∧
    ((vindex_query sim index queryVector k).length < k ↔ index.length < k) ∧
    List.Pairwise (fun a b => b.2 ≤ a.2) (vindex_query sim index queryVector k) ∧
    vindex_query sim ([] : List (α × Vec)) queryVector retrievalTopK = [] := by
  have hlen : (vindex_query sim index queryVector k).length = min k index.length := by
    unfold vindex_query
    rw [List.length_take, length_rankDesc, List.length_map]
  refine ⟨hlen, ?_, ?_, rfl⟩
  · rw [hlen]
    omega
  · exact List.Pairwise.sublist (List.take_sublist _ _) (pairwise_rankDesc _)

/-- C10: constructing the researcher with the `OPENAI_API_KEY` environment
variable unset fails with an error whose message names `OPENAI_API_KEY`,
for every PDF path and regardless of whether the PDF exists, and no
instance (hence no pipeline state) is ever produced. -/
theorem C10_requires_api_key (pdf_exists : Bool) (pdf_path : String)
    (chunk_size chunk_overlap : Nat) (model_name : String)
    (vectorstore_path : Option String) (enable_pii_detection : Bool) :
    mkResearcher none pdf_exists pdf_path chunk_size chunk_overlap model_name
        vectorstore_path enable_pii_detection
        = Except.error (PyError.valueError keyErrorMsg) ∧
    "OPENAI_API_KEY".data.isPrefixOf keyErrorMsg.data = true ∧
    ∀ r : Researcher,
      mkResearcher none pdf_exists pdf_path chunk_size chunk_overlap model_name
          vectorstore_path enable_pii_detection ≠ Except.ok r := by
  refine ⟨rfl, by decide, ?_⟩
  intro r hr
  exact Except.noConfusion hr

/-- C9 (amended): the enabled scanner's result is invariant under the
ASCII per-character case maps — upper-casing or lower-casing the ASCII
letters of every chunk's text, all other characters unchanged.  Under
Python's full Unicode `str.upper()` the invariance fails (see the
counterexample): upper-casing turns a sharp s into `SS` and can create an
email match that the original text does not have. -/
theorem C9_scan_case_insensitive (docs : List Document) :
    scan_for_secrets true (docs.map docUpper) = scan_for_secrets true docs ∧
    scan_for_secrets true (docs.map docLower) = scan_for_secrets true docs := by
  constructor
  · show (scanFindings (docs.map docUpper)).dedup = (scanFindings docs).dedup
    rw [scanFindings_upper]
  · show (scanFindings (docs.map docLower)).dedup = (scanFindings docs).dedup
    rw [scanFindings_lower]

/-- Counterexample to C9 as originally stated: with Python's Unicode
`str.upper()`, upper-casing the chunk text changes the result set.  The
text containing a sharp-s local part matches no pattern (the sharp s is in
no character class, even under IGNORECASE — CPython agrees), while its
upper-casing `SS@B.IO` matches the email pattern, so exactly the Email
Address label appears after upper-casing and the two results differ. -/
theorem C9_counterexample :
    pyUpper "ß@b.io" = "SS@B.IO" ∧
    scan_for_secrets true [⟨"ß@b.io"⟩] = [] ∧
    scan_for_secrets true [⟨pyUpper "ß@b.io"⟩] = [mkLabel "Email Address"] ∧
    scan_for_secrets true [⟨pyUpper "ß@b.io"⟩] ≠ scan_for_secrets true [⟨"ß@b.io"⟩] :=
  ⟨by decide, by decide, by decide, by decide⟩
